import Mathlib

/-!
Verification of the dispatch/rate-limit core of the OPTIONSmagicAI bot
(`src/main.py`) against its specification.

The embedding below translates the Python source into Lean:
time instants and user ids are `Int`; the process-wide
`user_last_ask = defaultdict(lambda: 0)` table is a total map
`Int → Option Int` where `none` is an absent key and reads go through the
default `0` (a `defaultdict` read inserts the default for an absent key);
Python strings are `List Char` where slicing matters and `String`
elsewhere; a call that can raise returns `Option`/`Except`, with `none` /
`Except.error` standing for the raised exception.
-/

/-! ## Message splitter (`split_message`, src/main.py lines 46-47) -/

/-- Python `range(0, stop, step)` with a natural `stop`: `none` models the
`ValueError` raised when `step = 0`; a negative `step` with `stop ≥ 0`
yields the empty range; a positive `step` yields
`0, step, 2*step, ...` below `stop`, which has `(stop + step - 1) / step`
elements. -/
def pyRange (stop : Nat) (step : Int) : Option (List Nat) :=
  if step = 0 then none
  else if step < 0 then some []
  else some (List.range' 0 ((stop + step.toNat - 1) / step.toNat) step.toNat)

/-- Python slice `text[i:i+len]` for a non-negative start: clamps at the end
of the list, as Python slicing does. -/
def pySlice (text : List Char) (start len : Nat) : List Char :=
  (text.drop start).take len

/-- `split_message(text, max_len)`:
`[text[i:i+max_len] for i in range(0, len(text), max_len)]`.
`none` models the `ValueError` that `range` raises when `max_len = 0`. -/
def split_message (text : List Char) (max_len : Int) : Option (List (List Char)) :=
  (pyRange text.length max_len).map (fun idxs => idxs.map (fun i => pySlice text i max_len.toNat))

/-- The chunk list `split_message` computes for a positive `max_len`,
written with the width as a `Nat`. -/
def chunksOf (text : List Char) (m : Nat) : List (List Char) :=
  (List.range' 0 ((text.length + m - 1) / m) m).map (fun i => pySlice text i m)

/-! ## Rate limiter (`user_last_ask`, `rate_limited`, src/main.py lines 30-43) -/

/-- The type of the `user_last_ask` table: user id to recorded timestamp,
`none` for a user with no entry. -/
abbrev RateTable := Int → Option Int

/-- The initial `user_last_ask = defaultdict(lambda: 0)`: empty. -/
def user_last_ask : RateTable := fun _ => none

/-- `ASK_INTERVAL = 30  # seconds`. -/
def ASK_INTERVAL : Int := 30

/-- The deny reply of the `rate_limited` wrapper. -/
def RATE_MSG : String := "You're sending requests too quickly. Please wait a bit."

/-- A `defaultdict(lambda: 0)` read `t[u]`: the stored value, or `0` with
the key inserted when absent. -/
def dictRead (t : RateTable) (u : Int) : Int × RateTable :=
  match t u with
  | some v => (v, t)
  | none => (0, fun x => if x = u then some 0 else t x)

/-- A dict write `t[u] = v`. -/
def dictWrite (t : RateTable) (u : Int) (v : Int) : RateTable :=
  fun x => if x = u then some v else t x

/-- The `rate_limited` decorator. `func` is the wrapped handler; it
receives the table as the gate left it and returns the table it leaves,
the replies it sends and its value. The wrapper reads `now` and
`user_id`, consults `user_last_ask[user_id]`, and either replies with
`RATE_MSG` and returns `none` (denied: the handler never runs), or
records `now` for `user_id` and only then runs `func`. -/
def rate_limited {α : Type} (func : RateTable → RateTable × List (List Char) × α)
    (table : RateTable) (user_id now : Int) :
    RateTable × List (List Char) × Option α :=
  let r := dictRead table user_id
  if now - r.1 < ASK_INTERVAL then
    (r.2, [RATE_MSG.data], none)
  else
    let s := func (dictWrite r.2 user_id now)
    (s.1, s.2.1, some s.2.2)

/-! ## The `/ask` handler (src/main.py lines 56-75) -/

/-- The usage-hint reply of `ask` for an empty query. -/
def USAGE_MSG : String := "Please enter a query after /ask (e.g., /ask What are good BANKNIFTY options today?)"

/-- The generic retry-later reply of `ask` when the completion call fails. -/
def RETRY_MSG : String := "Sorry, I couldn't reach OpenAI right now. Please try again later."

/-- The body of `ask` (the function `rate_limited` wraps):
`query = ' '.join(context.args)`; an empty query gets the usage hint and
no completion call; otherwise the completion service is called once on
`query` inside `try`/`except` — on failure the generic retry reply is
sent and the error swallowed; on success the answer is split with
`split_message` (default `max_len = 4096`, so the split never fails) and
each part sent in order. Returns (replies sent, completion calls made). -/
def ask_body (args : List String) (complete : String → Except (List Char) (List Char)) :
    List (List Char) × Nat :=
  let query := String.intercalate " " args
  if query = "" then ([USAGE_MSG.data], 0)
  else
    match complete query with
    | Except.error _e => ([RETRY_MSG.data], 1)
    | Except.ok answer_content => ((split_message answer_content 4096).getD [], 1)

/-- The `/ask` handler as dispatched: `ask_body` wrapped by
`rate_limited`. Returns the table after the call, the replies sent, and
`some` completion-call count when admitted (`none` when denied). -/
def ask (table : RateTable) (user_id now : Int) (args : List String)
    (complete : String → Except (List Char) (List Char)) :
    RateTable × List (List Char) × Option Nat :=
  rate_limited (fun t => (t, ask_body args complete)) table user_id now

/-! ## The `/alert` handler (src/main.py lines 77-101) -/

/-- The fixed trade-idea records of `alert`. -/
def alert_data : List (List String) :=
  [["PAGEIND 51000 CE", "Entry: 123.45", "SL: 112", "Target: 145", "Sector: Auto"],
   ["ASTRAL 1600 CE", "Entry: 98.70", "SL: 87", "Target: 125", "Sector: Pipes"],
   ["DIVISLAB 4500 CE", "Entry: 156.20", "SL: 140", "Target: 180", "Sector: Pharma"]]

/-- One block of the alert message:
`f"• {trade[0]} ({trade[4]})\n  {trade[1]} | {trade[2]} | {trade[3]}\n\n"`. -/
def trade_line (trade : List String) : String :=
  "• " ++ trade.getD 0 "" ++ " (" ++ trade.getD 4 "" ++ ")\n  " ++ trade.getD 1 ""
    ++ " | " ++ trade.getD 2 "" ++ " | " ++ trade.getD 3 "" ++ "\n\n"

/-- The full formatted alert message `alert` sends with `reply_markdown`. -/
def alert_message : String :=
  alert_data.foldl (fun msg trade => msg ++ trade_line trade)
    "🧠 *OPTIONSmagicAI 4PM Swing Breakout Alerts* 💡\n\n"
  ++ "From Signal to Success—Automated."

/-- The row `alert` appends to the sheet for one record:
`[today, row[0], row[1], row[2], row[3], row[4]]`. -/
def alert_row (today : String) (row : List String) : List String :=
  [today, row.getD 0 "", row.getD 1 "", row.getD 2 "", row.getD 3 "", row.getD 4 ""]

/-- The observable effects of the `alert` handler: a reply sent to the
user, or one `sheet.append_row` call with the fields it was given and
whether the sink accepted it. -/
inductive SheetEffect where
  | sent (msg : String)
  | append_attempt (fields : List String) (ok : Bool)
deriving DecidableEq

/-- One loop iteration of `alert`:
`try: sheet.append_row(fields) except Exception as e: logging.error(...)`.
The attempt is made whatever the sink answers; a failure is logged and
swallowed, never re-raised. -/
def try_append (sink : List String → Except String Unit) (fields : List String) : SheetEffect :=
  match sink fields with
  | Except.ok _ => SheetEffect.append_attempt fields true
  | Except.error _e => SheetEffect.append_attempt fields false

/-- The `alert` handler: formats and sends `alert_message`, then attempts
one `append_row` per record of `alert_data` (the construction of the
message and rows from the fixed `alert_data` is total, so the outer
`except` branch that would send an internal-error reply is unreachable).
Returns the effect trace in order. -/
def alert (today : String) (sink : List String → Except String Unit) : List SheetEffect :=
  SheetEffect.sent alert_message ::
    alert_data.map (fun row => try_append sink (alert_row today row))

/-- The reply an effect carries, if it is one. -/
def sentOf : SheetEffect → Option String
  | SheetEffect.sent m => some m
  | SheetEffect.append_attempt _ _ => none

/-- The `append_row` call an effect carries, if it is one (failed ones
included). -/
def rowOf : SheetEffect → Option (List String)
  | SheetEffect.sent _ => none
  | SheetEffect.append_attempt fields _ => some fields

/-- The replies the user sees in an effect trace. -/
def sentMessages (es : List SheetEffect) : List String :=
  es.filterMap sentOf

/-- The `append_row` calls attempted in an effect trace, failed ones
included. -/
def attemptedRows (es : List SheetEffect) : List (List String) :=
  es.filterMap rowOf

/-! ## Startup credential check and `__main__` (src/main.py lines 104-119) -/

/-- The environment values `check_credentials` reads: `none` for an unset
variable (`os.getenv` returns `None`). -/
structure EnvConfig where
  TELEGRAM_TOKEN : Option String
  OPENAI_API_KEY : Option String
  SHEET_ID : Option String

/-- Python truthiness of an optional string: `None` and the empty string
are falsy. -/
def envTruthy : Option String → Bool
  | none => false
  | some s => !(s == "")

/-- The `RuntimeError` message of `check_credentials`. -/
def CRED_ERR : String := "Missing one or more required environment variables. Please set TELEGRAM_TOKEN, OPENAI_API_KEY, and SHEET_ID."

/-- A required configuration value that is missing: unset, or set empty
(both are falsy to `all(required_env)`). -/
def missingEnv (v : Option String) : Prop := v = none ∨ v = some ""

/-- `check_credentials()`: raises `RuntimeError` unless all of
`TELEGRAM_TOKEN`, `OPENAI_API_KEY`, `SHEET_ID` are truthy. -/
def check_credentials (env : EnvConfig) : Except String Unit :=
  let required_env := [env.TELEGRAM_TOKEN, env.OPENAI_API_KEY, env.SHEET_ID]
  if required_env.all envTruthy then Except.ok () else Except.error CRED_ERR

/-- What the `__main__` block observably does. -/
inductive MainEffect where
  | printed (s : String)
  | polling_started
  | critical_logged (msg : String)
deriving DecidableEq

/-- The `__main__` block: `check_credentials()` first; on its failure the
exception is caught, `logging.critical` runs and nothing is served; when
it passes, the app is built, handlers registered, the banner printed and
`run_polling()` entered. -/
def main_flow (env : EnvConfig) : List MainEffect :=
  match check_credentials env with
  | Except.error e => [MainEffect.critical_logged ("Bot failed to start: " ++ e)]
  | Except.ok _ => [MainEffect.printed "Bot is up and running.", MainEffect.polling_started]

/-! ## Lemmas about the splitter -/

lemma range'_shift (step d : Nat) : ∀ (k s : Nat),
    List.range' (s + d) k step = (List.range' s k step).map (· + d) := by
  intro k
  induction k with
  | zero => intro s; rfl
  | succ k ih =>
    intro s
    rw [List.range'_succ, List.range'_succ, List.map_cons, ← ih (s + step)]
    have h1 : s + d + step = s + step + d := by omega
    rw [h1]

lemma count_succ (m n : Nat) (hm : 0 < m) (hn : 0 < n) :
    (n + m - 1) / m = (n - m + m - 1) / m + 1 := by
  rcases le_or_lt m n with h | h
  · have h1 : n + m - 1 = (n - m + m - 1) + m := by omega
    rw [h1, Nat.add_div_right _ hm]
  · have h2 : n - m = 0 := by omega
    have h3 : n + m - 1 = (n - 1) + m := by omega
    have e1 : (n - 1) / m = 0 := Nat.div_eq_of_lt (by omega)
    have e2 : (0 + m - 1) / m = 0 := Nat.div_eq_of_lt (by omega)
    rw [h2, h3, Nat.add_div_right _ hm, e1, e2]

lemma chunksOf_nil (m : Nat) (hm : 0 < m) : chunksOf [] m = [] := by
  unfold chunksOf
  have h : (List.length ([] : List Char) + m - 1) / m = 0 :=
    Nat.div_eq_of_lt (by show 0 + m - 1 < m; omega)
  rw [h]
  rfl

lemma chunksOf_cons (m : Nat) (hm : 0 < m) (text : List Char) (hne : text ≠ []) :
    chunksOf text m = text.take m :: chunksOf (text.drop m) m := by
  have hn : 0 < text.length := List.length_pos.mpr hne
  unfold chunksOf
  rw [List.length_drop, count_succ m text.length hm hn, List.range'_succ, List.map_cons]
  have hhead : pySlice text 0 m = text.take m := by simp [pySlice]
  rw [hhead]
  congr 1
  rw [range'_shift m m _ 0, List.map_map]
  apply List.map_congr_left
  intro i _
  show pySlice text (i + m) m = pySlice (text.drop m) i m
  simp only [pySlice]
  rw [List.drop_drop, Nat.add_comm i m]

lemma chunksOf_length (text : List Char) (m : Nat) :
    (chunksOf text m).length = (text.length + m - 1) / m := by
  simp [chunksOf]

lemma split_message_eq_chunksOf (text : List Char) (m : Nat) (hm : 0 < m) :
    split_message text (m : Int) = some (chunksOf text m) := by
  have h0 : ¬((m : Int) = 0) := by omega
  have h1 : ¬((m : Int) < 0) := by omega
  simp only [split_message, pyRange, h0, h1, if_false, Option.map_some', Int.toNat_natCast]
  rfl

lemma chunksOf_flatten_aux (m : Nat) (hm : 0 < m) :
    ∀ (n : Nat) (text : List Char), text.length ≤ n → (chunksOf text m).flatten = text := by
  intro n
  induction n with
  | zero =>
    intro text h
    have : text = [] := List.length_eq_zero.mp (by omega)
    rw [this, chunksOf_nil m hm]
    rfl
  | succ n ih =>
    intro text h
    rcases eq_or_ne text [] with rfl | hne
    · rw [chunksOf_nil m hm]; rfl
    · have hpos : 0 < text.length := List.length_pos.mpr hne
      rw [chunksOf_cons m hm text hne, List.flatten_cons,
        ih (text.drop m) (by rw [List.length_drop]; omega)]
      exact List.take_append_drop m text

lemma chunksOf_flatten (m : Nat) (hm : 0 < m) (text : List Char) :
    (chunksOf text m).flatten = text :=
  chunksOf_flatten_aux m hm text.length text le_rfl

lemma chunksOf_chunk_le (text : List Char) (m : Nat) :
    ∀ c ∈ chunksOf text m, c.length ≤ m := by
  intro c hc
  rcases List.mem_map.mp hc with ⟨i, _, rfl⟩
  simp only [pySlice, List.length_take]
  omega

lemma chunksOf_ne_nil_aux (m : Nat) (hm : 0 < m) :
    ∀ (n : Nat) (text : List Char), text.length ≤ n → ∀ c ∈ chunksOf text m, c ≠ [] := by
  intro n
  induction n with
  | zero =>
    intro text h c hc
    have : text = [] := List.length_eq_zero.mp (by omega)
    rw [this, chunksOf_nil m hm] at hc
    exact absurd hc (List.not_mem_nil c)
  | succ n ih =>
    intro text h c hc
    rcases eq_or_ne text [] with rfl | hne
    · rw [chunksOf_nil m hm] at hc
      exact absurd hc (List.not_mem_nil c)
    · have hpos : 0 < text.length := List.length_pos.mpr hne
      rw [chunksOf_cons m hm text hne] at hc
      rcases List.mem_cons.mp hc with rfl | hc'
      · have : 0 < (text.take m).length := by rw [List.length_take]; omega
        exact List.length_pos.mp this
      · exact ih (text.drop m) (by rw [List.length_drop]; omega) c hc'

lemma chunksOf_dropLast_aux (m : Nat) (hm : 0 < m) :
    ∀ (n : Nat) (text : List Char), text.length ≤ n →
      ∀ c ∈ (chunksOf text m).dropLast, c.length = m := by
  intro n
  induction n with
  | zero =>
    intro text h c hc
    have : text = [] := List.length_eq_zero.mp (by omega)
    rw [this, chunksOf_nil m hm] at hc
    exact absurd hc (List.not_mem_nil c)
  | succ n ih =>
    intro text h c hc
    rcases eq_or_ne text [] with rfl | hne
    · rw [chunksOf_nil m hm] at hc
      exact absurd hc (List.not_mem_nil c)
    · rw [chunksOf_cons m hm text hne] at hc
      rcases hrest : chunksOf (text.drop m) m with _ | ⟨r, rs⟩
      · rw [hrest] at hc
        exact absurd hc (List.not_mem_nil c)
      · rw [hrest, List.dropLast_cons₂] at hc
        have hdrop_ne : text.drop m ≠ [] := by
          intro hd
          rw [hd, chunksOf_nil m hm] at hrest
          exact List.cons_ne_nil r rs hrest.symm
        have hmlt : m < text.length := by
          by_contra hle
          exact hdrop_ne (List.drop_eq_nil_iff.mpr (by omega))
        rcases List.mem_cons.mp hc with rfl | hc'
        · rw [List.length_take]; omega
        · refine ih (text.drop m) (by rw [List.length_drop]; omega) c ?_
          rw [hrest]
          exact hc'

/-! ## Lemmas about the rate limiter -/

lemma dictRead_fst (t : RateTable) (u : Int) : (dictRead t u).1 = (t u).getD 0 := by
  cases h : t u <;> simp [dictRead, h]

lemma dictRead_snd_apply (t : RateTable) (u x : Int) (hx : x ≠ u) :
    (dictRead t u).2 x = t x := by
  cases h : t u <;> simp [dictRead, h, hx]

lemma dictWrite_dictRead (t : RateTable) (u now : Int) :
    dictWrite (dictRead t u).2 u now = dictWrite t u now := by
  funext x
  by_cases hx : x = u
  · simp [dictWrite, hx]
  · simp [dictWrite, hx, dictRead_snd_apply t u x hx]

lemma rate_limited_denied_eq {α : Type}
    (func : RateTable → RateTable × List (List Char) × α)
    (table : RateTable) (u now : Int) (h : now - (dictRead table u).1 < ASK_INTERVAL) :
    rate_limited func table u now = ((dictRead table u).2, [RATE_MSG.data], none) := by
  simp only [rate_limited]
  rw [if_pos h]

lemma rate_limited_admitted_eq {α : Type}
    (func : RateTable → RateTable × List (List Char) × α)
    (table : RateTable) (u now : Int) (h : ¬(now - (dictRead table u).1 < ASK_INTERVAL)) :
    rate_limited func table u now =
      ((func (dictWrite table u now)).1, (func (dictWrite table u now)).2.1,
        some (func (dictWrite table u now)).2.2) := by
  simp only [rate_limited]
  rw [if_neg h, dictWrite_dictRead]

/-- C1: for a user `u` with a previously recorded timestamp `last`, a gated call
at instant `now` is admitted (the wrapped handler runs, the result is `some`) if
and only if `now - last ≥ ASK_INTERVAL` (30). When admitted, the wrapped handler
runs on the table in which `now` is already recorded for `u` (the write happens
before the call to `func`). When denied, the stored timestamp for `u` is left
unchanged and the handler does not run. -/
theorem rate_limited_gate_spec {α : Type}
    (func : RateTable → RateTable × List (List Char) × α)
    (table : RateTable) (u now last : Int) (h : table u = some last) :
    (((rate_limited func table u now).2.2).isSome = true ↔ ASK_INTERVAL ≤ now - last)
      ∧ (ASK_INTERVAL ≤ now - last →
          rate_limited func table u now =
            ((func (dictWrite table u now)).1, (func (dictWrite table u now)).2.1,
              some (func (dictWrite table u now)).2.2)
            ∧ dictWrite table u now u = some now)
      ∧ (now - last < ASK_INTERVAL →
          (rate_limited func table u now).1 u = some last
            ∧ (rate_limited func table u now).2.2 = none) := by
  have h1 : (dictRead table u).1 = last := by simp [dictRead, h]
  have h2 : (dictRead table u).2 = table := by simp [dictRead, h]
  by_cases hlt : now - last < ASK_INTERVAL
  · have hd := rate_limited_denied_eq func table u now (by rw [h1]; exact hlt)
    rw [hd, h2]
    refine ⟨by simp; omega, fun hge => absurd hge (by omega), fun _ => ⟨h, rfl⟩⟩
  · have ha := rate_limited_admitted_eq func table u now (by rw [h1]; exact hlt)
    rw [ha]
    exact ⟨by simp; omega, fun _ => ⟨rfl, by simp [dictWrite]⟩,
      fun hlt2 => absurd hlt2 hlt⟩

def probeTable : RateTable := fun x => if x = 5 then some 100 else none

def probeFunc : RateTable → RateTable × List (List Char) × Nat :=
  fun t => (t, [], 0)

theorem rate_limited_gate_spec_witness :
    ((rate_limited probeFunc probeTable 5 130).2.2).isSome = true :=
  (rate_limited_gate_spec probeFunc probeTable 5 130 100 (by decide)).1.mpr (by decide)

/-- C2 (amended): for a user `u` with no entry, the `defaultdict` read yields the
default `0`, so the first gated call at instant `now` is admitted iff
`now - 0 ≥ ASK_INTERVAL`, i.e. iff `now ≥ 30` — the absent entry is treated as
the epoch timestamp `0`, not as infinitely long ago. A denied first call is not
admitted (and leaves the freshly inserted default `0` as the entry). -/
theorem rate_limited_first_call {α : Type}
    (func : RateTable → RateTable × List (List Char) × α)
    (table : RateTable) (u now : Int) (h : table u = none) :
    (((rate_limited func table u now).2.2).isSome = true ↔ ASK_INTERVAL ≤ now)
      ∧ (now < ASK_INTERVAL →
          (rate_limited func table u now).1 u = some 0
            ∧ (rate_limited func table u now).2.1 = [RATE_MSG.data]) := by
  have h1 : (dictRead table u).1 = 0 := by simp [dictRead, h]
  have h2 : (dictRead table u).2 = fun x => if x = u then some 0 else table x := by
    simp [dictRead, h]
  by_cases hlt : now < ASK_INTERVAL
  · have hd := rate_limited_denied_eq func table u now (by rw [h1]; omega)
    rw [hd, h2]
    refine ⟨by simp; omega, fun _ => ⟨by simp, rfl⟩⟩
  · have ha := rate_limited_admitted_eq func table u now (by rw [h1]; omega)
    rw [ha]
    exact ⟨by simp; omega, fun hlt2 => absurd hlt2 hlt⟩

theorem rate_limited_first_call_witness :
    ((rate_limited probeFunc user_last_ask 7 50).2.2).isSome = true :=
  (rate_limited_first_call probeFunc user_last_ask 7 50 rfl).1.mpr (by decide)

/-- C2 counterexample: a user with no entry in `user_last_ask` whose first gated
call happens at instant `10` is denied (`10 - 0 < 30`), refuting "the first gated
call is admitted at every instant". -/
theorem rate_limited_first_call_denied_cex :
    (rate_limited probeFunc user_last_ask 1 10).2.2 = none := rfl

/-- The recorded timestamp a Python read of `user_last_ask[u]` would return. -/
def readTs (t : RateTable) (u : Int) : Int := (t u).getD 0

/-- The table evolution of one gated call `(user_id, now)`: the handlers never
write to `user_last_ask` themselves, so the wrapped function is one that leaves
the table as it found it. -/
def gateStep (t : RateTable) (c : Int × Int) : RateTable :=
  (rate_limited (fun s => (s, ([] : List (List Char)), ())) t c.1 c.2).1

lemma gateStep_mono (t : RateTable) (c : Int × Int) (u : Int) :
    readTs t u ≤ readTs (gateStep t c) u := by
  obtain ⟨v, now⟩ := c
  show readTs t u ≤
    readTs ((rate_limited (fun s => (s, ([] : List (List Char)), ())) t v now).1) u
  by_cases hlt : now - (dictRead t v).1 < ASK_INTERVAL
  · rw [rate_limited_denied_eq _ t v now hlt]
    by_cases huv : u = v
    · subst huv
      cases h : t u <;> simp [readTs, dictRead, h]
    · cases h : t v <;> simp [readTs, dictRead, h, huv]
  · rw [rate_limited_admitted_eq _ t v now hlt]
    rw [dictRead_fst] at hlt
    simp only [ASK_INTERVAL] at hlt
    by_cases huv : u = v
    · subst huv
      cases h : t u <;> simp [readTs, dictWrite, h] at hlt ⊢ <;> omega
    · simp [readTs, dictWrite, huv]

/-- C8: across any sequence of gated calls with arbitrary instants, the
timestamp recorded for any user never decreases: a denial leaves it unchanged,
and an admission requires `now - last ≥ 30 > 0`, so the newly recorded `now`
is at least the previous value. -/
theorem rate_table_monotone (calls : List (Int × Int)) (table : RateTable) (u : Int) :
    readTs table u ≤ readTs (calls.foldl gateStep table) u := by
  induction calls generalizing table with
  | nil => exact le_rfl
  | cons c cs ih =>
    rw [List.foldl_cons]
    exact le_trans (gateStep_mono table c u) (ih (gateStep table c))

/-! ## The `/ask` handler claims -/

/-- C4: an admitted `/ask` whose arguments join to the empty string replies with
the usage hint only, makes zero completion-service calls — and still records the
caller's timestamp, because the `rate_limited` gate writes `now` before the
empty-argument check runs (an empty `/ask` consumes the rate window). -/
theorem ask_empty_consumes_window (table : RateTable) (u now : Int)
    (args : List String) (complete : String → Except (List Char) (List Char))
    (hq : String.intercalate " " args = "")
    (hadm : ASK_INTERVAL ≤ now - (table u).getD 0) :
    ask table u now args complete
      = (dictWrite table u now, [USAGE_MSG.data], some 0) := by
  have hbody : ask_body args complete = ([USAGE_MSG.data], 0) := by
    simp [ask_body, hq]
  have hcond : ¬(now - (dictRead table u).1 < ASK_INTERVAL) := by
    rw [dictRead_fst]
    omega
  rw [ask, rate_limited_admitted_eq _ table u now hcond]
  simp [hbody]

def completeOk : String → Except (List Char) (List Char) :=
  fun _ => Except.ok ("fine".data)

theorem ask_empty_consumes_window_witness :
    ask user_last_ask 1 100 [] completeOk
      = (dictWrite user_last_ask 1 100, [USAGE_MSG.data], some 0) :=
  ask_empty_consumes_window user_last_ask 1 100 [] completeOk rfl (by decide)

/-- C5: for an admitted `/ask` with a non-empty query whose completion call
fails with any raw error `e`, the handler sends exactly one reply, the fixed
generic retry-later message `RETRY_MSG` — an output independent of `e`, so the
raw error appears in no reply — makes its single completion call, and returns
normally (`some`): the failure does not escape the handler. -/
theorem ask_failure_generic_reply (table : RateTable) (u now : Int)
    (args : List String) (complete : String → Except (List Char) (List Char))
    (e : List Char)
    (hq : ¬(String.intercalate " " args = ""))
    (he : complete (String.intercalate " " args) = Except.error e)
    (hadm : ASK_INTERVAL ≤ now - (table u).getD 0) :
    ask table u now args complete
      = (dictWrite table u now, [RETRY_MSG.data], some 1) := by
  have hbody : ask_body args complete = ([RETRY_MSG.data], 1) := by
    simp [ask_body, hq, he]
  have hcond : ¬(now - (dictRead table u).1 < ASK_INTERVAL) := by
    rw [dictRead_fst]
    omega
  rw [ask, rate_limited_admitted_eq _ table u now hcond]
  simp [hbody]

def completeFail : String → Except (List Char) (List Char) :=
  fun _ => Except.error ("boom".data)

theorem ask_failure_generic_reply_witness :
    ask user_last_ask 2 64 ["What", "is", "BANKNIFTY"] completeFail
      = (dictWrite user_last_ask 2 64, [RETRY_MSG.data], some 1) :=
  ask_failure_generic_reply user_last_ask 2 64 ["What", "is", "BANKNIFTY"] completeFail
    ("boom".data) (by decide) rfl (by decide)

/-! ## The `/alert` handler claims -/

lemma sentOf_try_append (sink : List String → Except String Unit) (fields : List String) :
    sentOf (try_append sink fields) = none := by
  cases h : sink fields <;> simp [try_append, sentOf, h]

lemma rowOf_try_append (sink : List String → Except String Unit) (fields : List String) :
    rowOf (try_append sink fields) = some fields := by
  cases h : sink fields <;> simp [try_append, rowOf, h]

lemma filterMap_none_of {α β : Type} (f : α → Option β) (l : List α)
    (h : ∀ a ∈ l, f a = none) : l.filterMap f = [] := by
  induction l with
  | nil => rfl
  | cons a l ih =>
    rw [List.filterMap_cons, h a (by simp)]
    exact ih fun x hx => h x (by simp [hx])

lemma filterMap_eq_map_of {α β : Type} (f : α → Option β) (g : α → β) (l : List α)
    (h : ∀ a ∈ l, f a = some (g a)) : l.filterMap f = l.map g := by
  induction l with
  | nil => rfl
  | cons a l ih =>
    rw [List.filterMap_cons, h a (by simp), List.map_cons]
    rw [ih fun x hx => h x (by simp [hx])]

/-- C6: whatever subset of the three appends the log sink fails, `alert` sends
exactly one user-facing message, `alert_message` itself (so no append failure is
ever surfaced to the user as a command failure), and attempts exactly one
`append_row` call per record of `alert_data` — three calls, in order, regardless
of earlier failures. -/
theorem alert_sink_failures_contained (today : String)
    (sink : List String → Except String Unit) :
    sentMessages (alert today sink) = [alert_message]
      ∧ attemptedRows (alert today sink) = alert_data.map (alert_row today)
      ∧ (attemptedRows (alert today sink)).length = 3 := by
  have hnil : (alert_data.map fun row => try_append sink (alert_row today row)).filterMap sentOf
      = [] := by
    refine filterMap_none_of _ _ ?_
    intro eff heff
    rcases List.mem_map.mp heff with ⟨row, _, rfl⟩
    exact sentOf_try_append sink (alert_row today row)
  have hrows : (alert_data.map fun row => try_append sink (alert_row today row)).filterMap rowOf
      = alert_data.map (alert_row today) := by
    rw [List.filterMap_map]
    exact filterMap_eq_map_of _ _ _ fun row _ => rowOf_try_append sink (alert_row today row)
  have hsent : sentMessages (alert today sink) = [alert_message] := by
    simp only [sentMessages, alert, List.filterMap_cons, sentOf, hnil]
  have hatt : attemptedRows (alert today sink) = alert_data.map (alert_row today) := by
    simp only [attemptedRows, alert, List.filterMap_cons, rowOf, hrows]
  exact ⟨hsent, hatt, by rw [hatt]; rfl⟩

/-! ## Startup claims -/

lemma envTruthy_false_iff (v : Option String) : envTruthy v = false ↔ missingEnv v := by
  cases v with
  | none => simp [envTruthy, missingEnv]
  | some s => simp [envTruthy, missingEnv]

/-- C9: `check_credentials` raises (returns its `RuntimeError`) if and only if
at least one of the three required configuration values is missing — unset or
set to the empty string, both falsy to `all(...)` — and whenever it raises,
`__main__` catches the exception and never starts polling: the process serves
no commands. -/
theorem check_credentials_spec (env : EnvConfig) :
    ((∃ e, check_credentials env = Except.error e)
        ↔ (missingEnv env.TELEGRAM_TOKEN ∨ missingEnv env.OPENAI_API_KEY
            ∨ missingEnv env.SHEET_ID))
      ∧ ∀ e, check_credentials env = Except.error e →
          MainEffect.polling_started ∉ main_flow env := by
  have hiff : (¬ [env.TELEGRAM_TOKEN, env.OPENAI_API_KEY, env.SHEET_ID].all envTruthy = true)
      ↔ (missingEnv env.TELEGRAM_TOKEN ∨ missingEnv env.OPENAI_API_KEY
          ∨ missingEnv env.SHEET_ID) := by
    rw [← envTruthy_false_iff env.TELEGRAM_TOKEN, ← envTruthy_false_iff env.OPENAI_API_KEY,
      ← envTruthy_false_iff env.SHEET_ID]
    simp only [List.all_cons, List.all_nil, Bool.and_true, Bool.and_eq_true, not_and_or,
      Bool.not_eq_true]
  by_cases hall : [env.TELEGRAM_TOKEN, env.OPENAI_API_KEY, env.SHEET_ID].all envTruthy = true
  · have hc : check_credentials env = Except.ok () := by
      simp [check_credentials, hall]
    refine ⟨?_, ?_⟩
    · rw [← hiff]
      constructor
      · rintro ⟨e, he⟩
        rw [hc] at he
        exact absurd he (by simp)
      · intro hm
        exact absurd hall hm
    · intro e he
      rw [hc] at he
      exact absurd he (by simp)
  · have hc : check_credentials env = Except.error CRED_ERR := by
      simp [check_credentials, hall]
    refine ⟨⟨fun _ => hiff.mp hall, fun _ => ⟨CRED_ERR, hc⟩⟩, ?_⟩
    intro e _
    simp [main_flow, hc]

theorem check_credentials_spec_witness :
    MainEffect.polling_started ∉ main_flow (EnvConfig.mk none (some "k") (some "sheet")) :=
  (check_credentials_spec (EnvConfig.mk none (some "k") (some "sheet"))).2 CRED_ERR rfl

/-! ## The splitter claims -/

/-- C3: for every string and every positive chunk width `m`, `split_message`
succeeds, its chunks concatenate back to the input exactly, and every chunk has
length at most `m`. -/
theorem split_message_reassembles (s : List Char) (m : Nat) (hm : 0 < m) :
    ∃ chunks, split_message s (m : Int) = some chunks
      ∧ chunks.flatten = s ∧ ∀ c ∈ chunks, c.length ≤ m :=
  ⟨chunksOf s m, split_message_eq_chunksOf s m hm, chunksOf_flatten m hm s,
    chunksOf_chunk_le s m⟩

theorem split_message_reassembles_witness :
    ∃ chunks, split_message ("abcdefg".data) ((3 : Nat) : Int) = some chunks
      ∧ chunks.flatten = "abcdefg".data ∧ ∀ c ∈ chunks, c.length ≤ 3 :=
  split_message_reassembles ("abcdefg".data) 3 (by decide)

/-- C10: for every positive `m`, `split_message` on the empty string returns the
empty chunk list (not a single empty chunk), and on any string returns exactly
`⌈length / m⌉ = (length + m - 1) / m` chunks, every chunk except possibly the
last of length exactly `m`, and no chunk empty. -/
theorem split_message_chunk_shape (s : List Char) (m : Nat) (hm : 0 < m) :
    split_message ([] : List Char) (m : Int) = some []
      ∧ ∃ chunks, split_message s (m : Int) = some chunks
          ∧ chunks.length = (s.length + m - 1) / m
          ∧ (∀ c ∈ chunks.dropLast, c.length = m)
          ∧ ∀ c ∈ chunks, c ≠ [] := by
  refine ⟨?_, chunksOf s m, split_message_eq_chunksOf s m hm, chunksOf_length s m,
    chunksOf_dropLast_aux m hm s.length s le_rfl, chunksOf_ne_nil_aux m hm s.length s le_rfl⟩
  rw [split_message_eq_chunksOf [] m hm, chunksOf_nil m hm]

theorem split_message_chunk_shape_witness :
    split_message ([] : List Char) ((4 : Nat) : Int) = some []
      ∧ ∃ chunks, split_message ("abcdefghij".data) ((4 : Nat) : Int) = some chunks
          ∧ chunks.length = ("abcdefghij".data.length + 4 - 1) / 4
          ∧ (∀ c ∈ chunks.dropLast, c.length = 4)
          ∧ ∀ c ∈ chunks, c ≠ [] :=
  split_message_chunk_shape ("abcdefghij".data) 4 (by decide)

/-- C7 counterexample: at `max_len = -1` the code raises nothing and returns the
empty list (`range(0, len, -1)` is empty), refuting "every `max_len ≤ 0` fails
with an InvalidArgument error". -/
theorem split_message_negative_no_error :
    split_message ("abc".data) (-1) = some [] := rfl

/-- C7 (amended): `split_message` fails (the `ValueError` from `range`) if and
only if `max_len = 0`; for `max_len < 0` it silently returns the empty chunk
list (dropping the text), and for `max_len > 0` it never fails. -/
theorem split_message_failure_iff (text : List Char) (max_len : Int) :
    (split_message text max_len = none ↔ max_len = 0)
      ∧ (max_len < 0 → split_message text max_len = some []) := by
  rcases lt_trichotomy max_len 0 with hneg | rfl | hpos
  · have hval : split_message text max_len = some [] := by
      rw [split_message, pyRange, if_neg hneg.ne, if_pos hneg]
      rfl
    refine ⟨⟨fun h => ?_, fun h => absurd h (by omega)⟩, fun _ => hval⟩
    rw [hval] at h
    exact absurd h (by simp)
  · have hval : split_message text 0 = none := by
      rw [split_message, pyRange, if_pos rfl]
      rfl
    exact ⟨⟨fun _ => rfl, fun _ => hval⟩, fun h => absurd h (by omega)⟩
  · obtain ⟨l, hl⟩ : ∃ l, split_message text max_len = some l := by
      rw [split_message, pyRange, if_neg (by omega), if_neg (by omega)]
      exact ⟨_, rfl⟩
    refine ⟨⟨fun h => ?_, fun h => absurd h (by omega)⟩, fun h => absurd h (by omega)⟩
    rw [hl] at h
    exact absurd h (by simp)

theorem split_message_failure_iff_witness :
    split_message ("ab".data) 0 = none :=
  (split_message_failure_iff ("ab".data) 0).1.mpr rfl

example : chunksOf ("abcdefg".data) 3 = ["abc".data, "def".data, "g".data] := by decide
example : split_message ("abcdefg".data) 3 = some ["abc".data, "def".data, "g".data] := by decide
example : split_message ("abc".data) (-1) = some [] := by decide
example : split_message ("abc".data) 0 = none := by decide
example : split_message ([] : List Char) 5 = some [] := by decide
example : (rate_limited (fun t => (t, ([] : List (List Char)), (0 : Nat))) user_last_ask 1 10).2.2 = none := by decide
example : (rate_limited (fun t => (t, ([] : List (List Char)), (0 : Nat))) user_last_ask 1 31).2.2 = some 0 := by decide
example : check_credentials ⟨some "", some "k", some "s"⟩ = Except.error CRED_ERR := rfl
